import Mathlib

/-!
Verification of the MycoBank name-resolution pipeline (`get_current_name.py`).

Names (Python strings) are embedded as `List Char`.  Python's `str.strip()`
becomes `pyStrip`, `str.lower()` becomes `pyLower` (ASCII case mapping, which
is what matters for the Latin binomials this tool processes), substring tests
(`a in b` on strings) become `pyContains`, and membership in a Python list of
strings (`a in xs`) becomes `List.contains`.

JSON scalar values appearing in identifier fields are embedded as `JVal`
(numbers and strings); a JSON `null` and an absent key both surface as
Python `None` through `dict.get`, embedded as `Option.none`.
-/

/-- A Python string, embedded as its list of characters. -/
abbrev Name := List Char

/-- Python `str.lower()` restricted to ASCII, per-character `Char.toLower`. -/
def pyLower (s : Name) : Name := s.map Char.toLower

/-- Python `str.strip()`: drop leading and trailing whitespace. -/
def pyStrip (s : Name) : Name :=
  ((s.dropWhile Char.isWhitespace).reverse.dropWhile Char.isWhitespace).reverse

/-- Python `sub in s` for strings: substring test. -/
def pyContains (sub s : Name) : Bool :=
  s.tails.any (fun t => List.isPrefixOf sub t)

/-- A JSON scalar value as it appears in identifier fields (`id`,
`currentNameId`, `mycobankNr`): a number or a string.  JSON `null` (and an
absent key) is represented by wrapping in `Option` at use sites, matching
Python `dict.get`. -/
inductive JVal where
  | jnum (n : Int)
  | jstr (s : Name)
deriving DecidableEq

instance : BEq JVal := ⟨fun a b => decide (a = b)⟩

instance : LawfulBEq JVal where
  eq_of_beq h := by simpa [BEq.beq] using h
  rfl := by simp [BEq.beq]

/-- Python truthiness test `not current_id` on a value obtained from
`dict.get`: `None` (absent/null), the number `0` and the empty string are
falsy. -/
def jfalsy : Option JVal → Bool
  | none => true
  | some (JVal.jnum n) => n == 0
  | some (JVal.jstr s) => s.isEmpty

/-- The `synonymy` sub-object of an authority record. -/
structure Synonymy where
  currentNameId : Option JVal
deriving DecidableEq

/-- An element of the `items` array of the batch response
(an AuthorityRecord).  `none` in a field means the key is absent or null. -/
structure Item where
  id : Option JVal
  name : Option Name
  nameStatus : Option Name
  synonymy : Option Synonymy
  mycobankNr : Option JVal
deriving DecidableEq

/-- Python `item.get("name", "")`. -/
def Item.nameD (it : Item) : Name := it.name.getD []

/-- Python `item.get("synonymy", ...).get("currentNameId")`. -/
def Item.currentId (it : Item) : Option JVal :=
  match it.synonymy with
  | none => none
  | some syn => syn.currentNameId

/-- The closed set of classification outcomes. -/
inductive Status where
  | current
  | not_current
  | no_records
  | no_valid
  | no_current
  | multiple_records
  | error
deriving DecidableEq

/-- One output row `[species_query, status, current_name]`. -/
structure Row where
  species : Name
  status : Status
  current_name : Name
deriving DecidableEq

/-- The literal `"NA"`. -/
def NA : Name := "NA".data

/-- The literal placeholder written when a synonym lookup payload lacks the
name field. -/
def UNKNOWN : Name := "<unknown>".data

/-- The markers `excluded_characters = ['[', ']', 'sp.', 'cf.', 'aff.']`. -/
def excluded_characters : List Name :=
  ["[".data, "]".data, "sp.".data, "cf.".data, "aff.".data]

/-- The classification `read_species_list` gives one stripped non-blank line:
the user exclusion list is consulted first, then the ambiguity markers;
`none` means the line is accepted into the query list. -/
inductive Reason where
  | user_excluded
  | ambiguous
deriving DecidableEq

/-- Disposition of one stripped non-blank line, in the source's check order. -/
def disposition (excluded_species : List Name) (sp : Name) : Option Reason :=
  if excluded_species.contains sp then some Reason.user_excluded
  else if excluded_characters.any (fun ch => pyContains ch sp) then some Reason.ambiguous
  else none

/-- Function `read_species_list`: iterate the input lines, strip each, skip blanks,
classify against the user exclusion list and the ambiguity markers; return
(species_to_check, excluded_rows).  The two summary counters of the source
are the lengths of the corresponding sublists of `excluded_rows`. -/
def read_species_list (lines : List Name) (excluded_species : List Name) :
    List Name × List (Name × Reason) :=
  match lines with
  | [] => ([], [])
  | line :: rest =>
    let tl := read_species_list rest excluded_species
    let sp := pyStrip line
    if sp.isEmpty then tl
    else if excluded_species.contains sp then (tl.1, (sp, Reason.user_excluded) :: tl.2)
    else if excluded_characters.any (fun ch => pyContains ch sp) then
      (tl.1, (sp, Reason.ambiguous) :: tl.2)
    else (sp :: tl.1, tl.2)

/-- The `batch` generator: successive `n`-sized chunks; with `n = 0` the
first `islice` is empty and the generator stops at once, yielding nothing. -/
def pybatch (n : Nat) : List Name → List (List Name)
  | [] => []
  | x :: xs =>
    if n = 0 then []
    else (x :: xs.take (n - 1)) :: pybatch n (xs.drop (n - 1))
termination_by l => l.length
decreasing_by
  simp only [List.length_drop, List.length_cons]
  omega

/-- The batch-level authority response: a non-200 status, a 200 whose body
fails to parse as JSON (`response.json()` raises), or a parsed `items`
array (`data.get("items", [])`). -/
inductive BatchResp where
  | fail
  | malformed
  | ok (items : List Item)

/-- The point-lookup response body for a current-name id: either it fails to
parse as JSON (`response_current.json()` raises) or it parses, with
optional `name` and `mycobankNr` fields.  The source never inspects the
status code of this response, only the body. -/
inductive PointPayload where
  | malformed
  | parsed (name : Option Name) (mycobankNr : Option JVal)

/-- The external authority, as seen by one run: the batch query transport
and the point-lookup transport. -/
structure Authority where
  batchQuery : List Name → BatchResp
  pointLookup : JVal → PointPayload

/-- Python `nameStatus in ["Illegitimate", "Invalid"]`. -/
def excludedStatus (s : Option Name) : Bool :=
  s == some "Illegitimate".data || s == some "Invalid".data

/-- The `species_items` filter: exact match of stripped, lowercased names,
ignoring illegitimate or invalid records. -/
def speciesMatches (items : List Item) (species : Name) : List Item :=
  items.filter fun item =>
    pyLower (pyStrip item.nameD) == pyLower (pyStrip species)
      && !(excludedStatus item.nameStatus)

/-- Classification once a single canonical record has been selected
(possibilities 4-6 of the source).  `Except.error ()` models an uncaught
Python exception aborting the run: a `KeyError` on `item["name"]`, or
`response_current.json()` raising on a malformed synonym-lookup payload. -/
def classifyCanonical (auth : Authority) (species : Name) (item : Item) :
    Except Unit Row :=
  if jfalsy item.currentId then Except.ok ⟨species, Status.no_current, NA⟩
  else
    match item.currentId with
    | none => Except.ok ⟨species, Status.no_current, NA⟩
    | some cid =>
      if item.id == some cid then
        match item.name with
        | none => Except.error ()
        | some nm => Except.ok ⟨species, Status.current, nm⟩
      else
        match auth.pointLookup cid with
        | PointPayload.malformed => Except.error ()
        | PointPayload.parsed nm _mb =>
          Except.ok ⟨species, Status.not_current, nm.getD UNKNOWN⟩

/-- Per-species classification against one batch response (possibilities
2-6 of the source). -/
def processSpecies (auth : Authority) (items : List Item) (species : Name) :
    Except Unit Row :=
  match speciesMatches items species with
  | [] =>
    let status :=
      if items.any (fun item => pyLower item.nameD == pyLower species)
      then Status.no_valid else Status.no_records
    Except.ok ⟨species, status, NA⟩
  | item0 :: tl =>
    match tl with
    | [] => classifyCanonical auth species item0
    | _ :: _ =>
      if (item0 :: tl).all (fun item => item.currentId == item0.currentId)
      then classifyCanonical auth species item0
      else Except.ok ⟨species, Status.multiple_records, NA⟩

/-- Classify each name of one batch in order against the batch response. -/
def processList (auth : Authority) (items : List Item) :
    List Name → Except Unit (List Row)
  | [] => Except.ok []
  | sp :: rest => do
    let row ← processSpecies auth items sp
    let rows ← processList auth items rest
    Except.ok (row :: rows)

/-- One iteration of the batch loop: a non-200 batch response marks every
name of the batch `error`/`"NA"` (possibility 1); a 200 whose body fails to
parse raises; otherwise the names are classified against the items. -/
def processBatch (auth : Authority) (species_batch : List Name) :
    Except Unit (List Row) :=
  match auth.batchQuery species_batch with
  | BatchResp.fail =>
    Except.ok (species_batch.map fun sp => ⟨sp, Status.error, NA⟩)
  | BatchResp.malformed => Except.error ()
  | BatchResp.ok items => processList auth items species_batch

/-- Run the batch loop over a list of batches, accumulating result rows. -/
def runBatchList (auth : Authority) : List (List Name) → Except Unit (List Row)
  | [] => Except.ok []
  | b :: bs => do
    let rows ← processBatch auth b
    let rest ← runBatchList auth bs
    Except.ok (rows ++ rest)

/-- Function `get_current_names_batch`: split the query list into batches and run the
loop; the returned rows are the rows written to the output TSV. -/
def get_current_names_batch (auth : Authority) (species_list : List Name)
    (batch_size : Nat) : Except Unit (List Row) :=
  runBatchList auth (pybatch batch_size species_list)

/-! ### The semantic authority model

The server itself is not part of the repository; its filter semantics are
taken from the spec. -/

/-- Case-insensitive starts-with comparison of names. -/
def ciStartsWith (pre s : Name) : Bool :=
  List.isPrefixOf (pyLower pre) (pyLower s)

/-- Modelled from the spec: the authority's batch filter semantics
(§4.2/§4.3) — the server is an external service, absent from the source;
per the spec it returns every record whose name starts with one of the
batch's names, matching case-insensitively. -/
def serverItems (recs : List Item) (names : List Name) : List Item :=
  recs.filter fun r => names.any fun q => ciStartsWith q r.nameD

/-- The authority induced by a fixed record set and a fixed point-lookup
table: every batch call succeeds and returns the starts-with superset. -/
def semAuth (recs : List Item) (lk : JVal → PointPayload) : Authority :=
  ⟨fun names => BatchResp.ok (serverItems recs names), lk⟩

/-- The records that can influence the classification of the stripped query
`sp`: those whose stripped name equals `sp` case-insensitively. -/
def relFilter (sp : Name) (r : Item) : Bool :=
  pyLower (pyStrip r.nameD) == pyLower sp

/-- The classification of one stripped name against the semantic authority,
batch-independent: only the records relevant to the name are consulted. -/
def nameRun (recs : List Item) (lk : JVal → PointPayload) (sp : Name) :
    Except Unit Row :=
  processSpecies (semAuth recs lk)
    (recs.filter (fun r => relFilter sp r && ciStartsWith sp r.nameD)) sp

/-- Sequential classification of a list of names, one at a time. -/
def spTraverse (recs : List Item) (lk : JVal → PointPayload) :
    List Name → Except Unit (List Row)
  | [] => Except.ok []
  | sp :: rest => do
    let row ← nameRun recs lk sp
    let rows ← spTraverse recs lk rest
    Except.ok (row :: rows)

/-! ### Character-level and name-level lemmas -/

/-- Lemma: `Char.ofNat` evaluates to its argument on valid low codepoints. -/
theorem char_toNat_ofNat_of_lt {n : Nat} (h : n < 55296) : (Char.ofNat n).toNat = n := by
  rw [Char.ofNat, dif_pos (Or.inl h)]
  rfl

/-- Characters are determined by their codepoints. -/
theorem char_eq_iff_toNat {a b : Char} : a = b ↔ a.toNat = b.toNat := by
  constructor
  · intro h; rw [h]
  · intro h
    apply Char.eq_of_val_eq
    apply UInt32.eq_of_toBitVec_eq
    exact BitVec.eq_of_toNat_eq h

/-- Whitespace characterised by codepoint. -/
theorem isWhitespace_iff_toNat (c : Char) :
    c.isWhitespace = true ↔ (c.toNat = 32 ∨ c.toNat = 9 ∨ c.toNat = 13 ∨ c.toNat = 10) := by
  simp only [Char.isWhitespace, Bool.or_eq_true, decide_eq_true_eq]
  constructor
  · rintro (((h | h) | h) | h) <;> rw [char_eq_iff_toNat] at h <;> simp at h <;> omega
  · rintro (h | h | h | h)
    · left; left; left; rw [char_eq_iff_toNat]; simpa using h
    · left; left; right; rw [char_eq_iff_toNat]; simpa using h
    · left; right; rw [char_eq_iff_toNat]; simpa using h
    · right; rw [char_eq_iff_toNat]; simpa using h

/-- ASCII lowercasing does not move characters into or out of the
whitespace class. -/
theorem isWhitespace_toLower (c : Char) : c.toLower.isWhitespace = c.isWhitespace := by
  unfold Char.toLower
  show (if c.toNat >= 65 ∧ c.toNat <= 90 then Char.ofNat (c.toNat + 32) else c).isWhitespace
    = c.isWhitespace
  by_cases h : c.toNat >= 65 ∧ c.toNat <= 90
  · rw [if_pos h]
    obtain ⟨h1, h2⟩ := h
    have hv : (Char.ofNat (c.toNat + 32)).toNat = c.toNat + 32 :=
      char_toNat_ofNat_of_lt (by omega)
    have lhs : (Char.ofNat (c.toNat + 32)).isWhitespace = false := by
      rw [← Bool.not_eq_true]
      rw [isWhitespace_iff_toNat, hv]
      omega
    have rhs : c.isWhitespace = false := by
      rw [← Bool.not_eq_true]
      rw [isWhitespace_iff_toNat]
      omega
    rw [lhs, rhs]
  · rw [if_neg h]

theorem ws_comp_toLower : (Char.isWhitespace ∘ Char.toLower) = Char.isWhitespace :=
  funext isWhitespace_toLower

/-- Stripping commutes with lowercasing. -/
theorem pyLower_pyStrip (s : Name) : pyLower (pyStrip s) = pyStrip (pyLower s) := by
  simp only [pyLower, pyStrip, List.dropWhile_map, List.reverse_map, ws_comp_toLower]

/-- A stripped string has no leading whitespace. -/
theorem dropWhile_eq_self_of_strip {s : Name} (h : pyStrip s = s) :
    s.dropWhile Char.isWhitespace = s := by
  have hsplit := List.takeWhile_append_dropWhile (p := Char.isWhitespace) (l := s)
  have hsplit2 := List.takeWhile_append_dropWhile (p := Char.isWhitespace)
    (l := (s.dropWhile Char.isWhitespace).reverse)
  have hlen : (pyStrip s).length ≤ (s.dropWhile Char.isWhitespace).length := by
    unfold pyStrip
    have := congrArg List.length hsplit2
    simp only [List.length_append, List.length_reverse] at this ⊢
    omega
  have hlen2 : (s.dropWhile Char.isWhitespace).length ≤ s.length := by
    have := congrArg List.length hsplit
    simp only [List.length_append] at this
    omega
  rw [h] at hlen
  have : (s.takeWhile Char.isWhitespace).length = 0 := by
    have := congrArg List.length hsplit
    simp only [List.length_append] at this
    omega
  rw [List.length_eq_zero] at this
  rw [this, List.nil_append] at hsplit
  exact hsplit

/-- A string with no leading whitespace is its stripped core followed by
trailing whitespace. -/
theorem strip_decomp {s : Name} (h : s.dropWhile Char.isWhitespace = s) :
    ∃ t, s = pyStrip s ++ t ∧ ∀ c ∈ t, Char.isWhitespace c = true := by
  refine ⟨(s.reverse.takeWhile Char.isWhitespace).reverse, ?_, ?_⟩
  · unfold pyStrip
    rw [h, ← List.reverse_append, List.takeWhile_append_dropWhile, List.reverse_reverse]
  · intro c hc
    rw [List.mem_reverse] at hc
    exact List.mem_takeWhile_imp hc

/-- The first character of a nonempty stripped string is not whitespace. -/
theorem head_not_ws {c : Char} {s : Name} (h : pyStrip (c :: s) = c :: s) :
    Char.isWhitespace c = false := by
  by_contra hcon
  rw [Bool.not_eq_false] at hcon
  have hd := dropWhile_eq_self_of_strip h
  rw [List.dropWhile_cons, if_pos hcon] at hd
  have := congrArg List.length hd
  have hle : (s.dropWhile Char.isWhitespace).length ≤ s.length := by
    have h2 := congrArg List.length (List.takeWhile_append_dropWhile
      (p := Char.isWhitespace) (l := s))
    simp only [List.length_append] at h2
    omega
  simp only [List.length_cons] at this
  omega

/-- Case-insensitive equality of full strings implies case-insensitive
equality after stripping. -/
theorem lower_eq_imp_strip_lower {sp nm : Name}
    (h : pyLower nm = pyLower sp) : pyLower (pyStrip nm) = pyLower (pyStrip sp) := by
  rw [pyLower_pyStrip, pyLower_pyStrip, h]

/-- If a record name is, up to case and trailing whitespace, the stripped
query `sp`, and the record was returned for some well-formed query prefix,
then the record also starts (case-insensitively) with `sp` itself. -/
theorem ciStartsWith_of_rel {sp q r : Name} (hsp : pyStrip sp = sp)
    (hq : pyStrip q = q) (hqne : q ≠ [])
    (hrel : pyLower (pyStrip r) = pyLower (pyStrip sp))
    (hpre : List.isPrefixOf (pyLower q) (pyLower r) = true) :
    List.isPrefixOf (pyLower sp) (pyLower r) = true := by
  rw [hsp] at hrel
  obtain ⟨qc, q1, rfl⟩ : ∃ c t, q = c :: t := by
    cases q with
    | nil => exact absurd rfl hqne
    | cons a b => exact ⟨a, b, rfl⟩
  have hqc : Char.isWhitespace qc = false := head_not_ws hq
  rw [List.isPrefixOf_iff_prefix] at hpre
  obtain ⟨rest, hrest⟩ := hpre
  obtain ⟨rc, r1, rfl⟩ : ∃ c t, r = c :: t := by
    cases r with
    | nil => simp [pyLower] at hrest
    | cons a b => exact ⟨a, b, rfl⟩
  have hhead : Char.toLower rc = Char.toLower qc := by
    simpa [pyLower] using congrArg (List.head? · ) hrest.symm
  have hrc : Char.isWhitespace rc = false := by
    have h1 : Char.isWhitespace (Char.toLower rc) = false := by
      rw [hhead, isWhitespace_toLower]
      exact hqc
    rw [isWhitespace_toLower] at h1
    exact h1
  have hdrop : (rc :: r1).dropWhile Char.isWhitespace = rc :: r1 := by
    rw [List.dropWhile_cons, if_neg (by simp [hrc])]
  obtain ⟨t, hdecomp, _hws⟩ := strip_decomp hdrop
  rw [List.isPrefixOf_iff_prefix]
  have : pyLower (rc :: r1) = pyLower sp ++ pyLower t := by
    conv_lhs => rw [hdecomp]
    rw [pyLower, List.map_append, ← hrel]
    rfl
  rw [this]
  exact List.prefix_append _ _

/-! ### Batching lemmas -/

/-- For a positive batch size the emitted batches concatenate back to the
query list: order preserved, nothing omitted, nothing duplicated. -/
theorem pybatch_flatten_bounded (n : Nat) (h : n ≠ 0) :
    ∀ (k : Nat) (l : List Name), l.length ≤ k → (pybatch n l).flatten = l := by
  intro k
  induction k with
  | zero =>
    intro l hl
    have : l = [] := List.length_eq_zero.mp (Nat.le_zero.mp hl)
    subst this
    simp [pybatch]
  | succ k ih =>
    intro l hl
    cases l with
    | nil => simp [pybatch]
    | cons x xs =>
      rw [pybatch]
      rw [if_neg h]
      rw [List.flatten_cons]
      have hlen : (xs.drop (n - 1)).length ≤ k := by
        simp only [List.length_drop]
        simp only [List.length_cons] at hl
        omega
      rw [ih _ hlen]
      rw [List.cons_append, List.take_append_drop]

theorem pybatch_flatten (n : Nat) (h : n ≠ 0) (l : List Name) :
    (pybatch n l).flatten = l :=
  pybatch_flatten_bounded n h l.length l (Nat.le_refl _)

/-- Every name of every emitted batch comes from the query list. -/
theorem mem_of_mem_pybatch {n : Nat} (h : n ≠ 0) {l : List Name} {b : List Name}
    {sp : Name} (hb : b ∈ pybatch n l) (hsp : sp ∈ b) : sp ∈ l := by
  rw [← pybatch_flatten n h l]
  exact List.mem_flatten.mpr ⟨b, hb, hsp⟩

/-! ### Classification depends only on the records relevant to a name -/

/-- Restricting the batch response to the relevant records does not change
a stripped name's classification. -/
theorem processSpecies_filter_rel (auth : Authority) (items : List Item) (sp : Name)
    (hsp : pyStrip sp = sp) :
    processSpecies auth (items.filter (relFilter sp)) sp = processSpecies auth items sp := by
  have hmatches : speciesMatches (items.filter (relFilter sp)) sp = speciesMatches items sp := by
    unfold speciesMatches
    rw [List.filter_filter]
    apply List.filter_congr
    intro r _hr
    cases hq : (pyLower (pyStrip r.nameD) == pyLower (pyStrip sp)
        && !(excludedStatus r.nameStatus)) with
    | false => simp [hq]
    | true =>
      simp only [hq, Bool.true_and]
      rw [Bool.and_eq_true] at hq
      have := eq_of_beq hq.1
      unfold relFilter
      rw [hsp] at this
      simp [this]
  have hany : (items.filter (relFilter sp)).any (fun item => pyLower item.nameD == pyLower sp)
      = items.any (fun item => pyLower item.nameD == pyLower sp) := by
    rw [List.any_filter]
    rw [Bool.eq_iff_iff]
    simp only [List.any_eq_true, Bool.and_eq_true]
    constructor
    · rintro ⟨r, hr, _hrel, hq⟩
      exact ⟨r, hr, hq⟩
    · rintro ⟨r, hr, hq⟩
      refine ⟨r, hr, ?_, hq⟩
      have heq := eq_of_beq hq
      have hstrip := lower_eq_imp_strip_lower heq
      rw [hsp] at hstrip
      unfold relFilter
      simp [hstrip]
  unfold processSpecies
  rw [hmatches, hany]

/-- Within a well-formed batch containing `sp`, the relevant part of the
server's starts-with superset does not depend on the rest of the batch. -/
theorem serverItems_filter_rel (recs : List Item) (B : List Name) (sp : Name)
    (hsp : pyStrip sp = sp) (hmem : sp ∈ B)
    (hgood : ∀ q ∈ B, pyStrip q = q ∧ q ≠ []) :
    (serverItems recs B).filter (relFilter sp)
      = recs.filter (fun r => relFilter sp r && ciStartsWith sp r.nameD) := by
  unfold serverItems
  rw [List.filter_filter]
  apply List.filter_congr
  intro r _hr
  cases hrel : relFilter sp r with
  | false => simp
  | true =>
    simp only [Bool.true_and]
    have hrel2 : pyLower (pyStrip r.nameD) = pyLower (pyStrip sp) := by
      rw [hsp]
      exact eq_of_beq hrel
    rw [Bool.eq_iff_iff]
    simp only [List.any_eq_true]
    constructor
    · rintro ⟨q, hqB, hq⟩
      obtain ⟨hqs, hqne⟩ := hgood q hqB
      exact ciStartsWith_of_rel hsp hqs hqne hrel2 hq
    · intro hci
      exact ⟨sp, hmem, hci⟩

theorem processSpecies_semAuth (recs : List Item) (lk : JVal → PointPayload)
    (B : List Name) (sp : Name) (hsp : pyStrip sp = sp) (hmem : sp ∈ B)
    (hgood : ∀ q ∈ B, pyStrip q = q ∧ q ≠ []) :
    processSpecies (semAuth recs lk) (serverItems recs B) sp = nameRun recs lk sp := by
  rw [← processSpecies_filter_rel (semAuth recs lk) (serverItems recs B) sp hsp]
  rw [serverItems_filter_rel recs B sp hsp hmem hgood]
  rfl

theorem processList_semAuth (recs : List Item) (lk : JVal → PointPayload)
    (B : List Name) (hgood : ∀ q ∈ B, pyStrip q = q ∧ q ≠ []) :
    ∀ l : List Name, (∀ sp ∈ l, sp ∈ B) →
      processList (semAuth recs lk) (serverItems recs B) l = spTraverse recs lk l := by
  intro l
  induction l with
  | nil => intro _; rfl
  | cons sp rest ih =>
    intro hl
    have hmem : sp ∈ B := hl sp (List.mem_cons_self _ _)
    have hsp : pyStrip sp = sp := (hgood sp hmem).1
    unfold processList spTraverse
    rw [processSpecies_semAuth recs lk B sp hsp hmem hgood]
    rw [ih (fun x hx => hl x (List.mem_cons_of_mem _ hx))]

theorem spTraverse_append (recs : List Item) (lk : JVal → PointPayload)
    (l1 l2 : List Name) :
    spTraverse recs lk (l1 ++ l2) =
      (do
        let r1 ← spTraverse recs lk l1
        let r2 ← spTraverse recs lk l2
        Except.ok (r1 ++ r2)) := by
  induction l1 with
  | nil =>
    simp only [List.nil_append]
    cases spTraverse recs lk l2 with
    | error e => rfl
    | ok r => rfl
  | cons sp rest ih =>
    rw [List.cons_append]
    have hcons : ∀ tail : List Name, spTraverse recs lk (sp :: tail)
        = (do
            let row ← nameRun recs lk sp
            let rows ← spTraverse recs lk tail
            Except.ok (row :: rows)) := fun _ => rfl
    rw [hcons, hcons, ih]
    cases nameRun recs lk sp with
    | error e => rfl
    | ok row =>
      cases spTraverse recs lk rest with
      | error e => rfl
      | ok r1 =>
        cases spTraverse recs lk l2 with
        | error e => rfl
        | ok r2 => rfl

theorem runBatchList_semAuth (recs : List Item) (lk : JVal → PointPayload) :
    ∀ bs : List (List Name),
      (∀ b ∈ bs, ∀ q ∈ b, pyStrip q = q ∧ q ≠ []) →
      runBatchList (semAuth recs lk) bs = spTraverse recs lk bs.flatten := by
  intro bs
  induction bs with
  | nil => intro _; rfl
  | cons b rest ih =>
    intro hgood
    rw [List.flatten_cons, spTraverse_append]
    unfold runBatchList
    have hb : processBatch (semAuth recs lk) b = spTraverse recs lk b := by
      show processList (semAuth recs lk) (serverItems recs b) b = spTraverse recs lk b
      exact processList_semAuth recs lk b (hgood b (List.mem_cons_self _ _)) b
        (fun sp hsp => hsp)
    rw [hb, ih (fun x hx => hgood x (List.mem_cons_of_mem _ hx))]

/-- Under the semantic authority, a run with any positive batch size equals
the name-by-name run: batch size is invisible to classification. -/
theorem run_semAuth_flat (recs : List Item) (lk : JVal → PointPayload)
    (l : List Name) (n : Nat) (hn : n ≠ 0)
    (hgood : ∀ sp ∈ l, pyStrip sp = sp ∧ sp ≠ []) :
    get_current_names_batch (semAuth recs lk) l n = spTraverse recs lk l := by
  unfold get_current_names_batch
  rw [runBatchList_semAuth recs lk (pybatch n l)
    (fun b hb q hq => hgood q (mem_of_mem_pybatch hn hb hq))]
  rw [pybatch_flatten n hn l]

/-! ### Loader lemmas -/

/-- Full characterisation of `read_species_list`: the query list is the
accepted stripped non-blank lines in file order, and the exclusion rows are
the excluded stripped non-blank lines in file order, tagged by the
disposition computed with the user list checked before the markers. -/
theorem read_species_list_spec (lines excl : List Name) :
    read_species_list lines excl
      = (((lines.map pyStrip).filter (fun sp => !sp.isEmpty)).filter
            (fun sp => (disposition excl sp).isNone),
         ((lines.map pyStrip).filter (fun sp => !sp.isEmpty)).filterMap
            (fun sp => (disposition excl sp).map (fun r => (sp, r)))) := by
  induction lines with
  | nil => rfl
  | cons line rest ih =>
    simp only [read_species_list, ih, List.map_cons, List.filter_cons]
    by_cases h1 : (pyStrip line).isEmpty
    · simp [h1]
    · by_cases h2 : pyStrip line ∈ excl
      · simp [h1, h2, disposition, List.filterMap_cons]
      · by_cases h3 : ∃ x ∈ excluded_characters, pyContains x (pyStrip line) = true
        · simp [h1, h2, h3, disposition, List.filterMap_cons]
        · simp [h1, h2, h3, disposition, List.filterMap_cons]

/-! ### Per-claim theorems -/

/-- Helper: each stripped non-blank line contributes exactly one unit to
either the query list or the exclusion rows. -/
theorem disposition_partition_length (excl : List Name) (L : List Name) :
    (L.filter (fun sp => (disposition excl sp).isNone)).length
      + (L.filterMap (fun sp => (disposition excl sp).map (fun r => (sp, r)))).length
      = L.length := by
  induction L with
  | nil => rfl
  | cons sp rest ih =>
    rw [List.filter_cons, List.filterMap_cons]
    cases hd : disposition excl sp with
    | none => simp [hd]; omega
    | some r => simp [hd]; omega

/-- Helper: filtering commutes with the strip map, for counting non-blank
lines. -/
theorem filter_map_pyStrip (lines : List Name) :
    ((lines.map pyStrip).filter (fun sp => !sp.isEmpty)).length
      = (lines.filter (fun line => !(pyStrip line).isEmpty)).length := by
  induction lines with
  | nil => rfl
  | cons line rest ih =>
    rw [List.map_cons, List.filter_cons, List.filter_cons]
    cases h : (!(pyStrip line).isEmpty) with
    | false => simpa [h] using ih
    | true => simpa [h] using ih

/-- C3, counterexample: the loader does not deduplicate.  A list whose two
lines are the same name yields a query list in which that name appears
twice, so the query list is not a sequence of unique lines. -/
theorem c3_duplicate_query_cex :
    (read_species_list ["Amanita muscaria".data, "Amanita muscaria".data] []).1
        = ["Amanita muscaria".data, "Amanita muscaria".data]
      ∧ ¬ (read_species_list
            ["Amanita muscaria".data, "Amanita muscaria".data] []).1.Nodup := by
  refine ⟨by decide, by decide⟩

/-- C3, amended: the loader's query list is the ordered sequence of accepted
stripped non-blank lines in file order; a line occurring several times is
queried once per occurrence (no deduplication). -/
theorem c3_query_list_file_order (lines excl : List Name) :
    (read_species_list lines excl).1
      = ((lines.map pyStrip).filter (fun sp => !sp.isEmpty)).filter
          (fun sp => (disposition excl sp).isNone) := by
  rw [read_species_list_spec]

/-- C4: every non-blank input line receives exactly one disposition —
the user exclusion list is checked first, then the ambiguity markers, else
the line is accepted (this is the content of `disposition`) — hence the
query-list length plus the exclusion-row count equals the number of
non-blank input lines. -/
theorem c4_partition (lines excl : List Name) :
    (read_species_list lines excl).1.length
        + (read_species_list lines excl).2.length
        = (lines.filter (fun line => !(pyStrip line).isEmpty)).length
      ∧ (read_species_list lines excl).2
        = ((lines.map pyStrip).filter (fun sp => !sp.isEmpty)).filterMap
            (fun sp => (disposition excl sp).map (fun r => (sp, r))) := by
  rw [read_species_list_spec]
  refine ⟨?_, rfl⟩
  rw [disposition_partition_length excl
    ((lines.map pyStrip).filter (fun sp => !sp.isEmpty))]
  exact filter_map_pyStrip lines

/-- C5, counterexample: with a configured batch size of 0 the generator
yields no batches at all, so the concatenation of the emitted batches omits
every element of a nonempty query list. -/
theorem c5_zero_batch_cex :
    (pybatch 0 ["Amanita muscaria".data]).flatten ≠ ["Amanita muscaria".data] := by
  have h : pybatch 0 ["Amanita muscaria".data] = [] := by simp [pybatch]
  rw [h]
  decide

/-- C5, amended: for every query list and every positive configured batch
size, the batcher preserves order and the concatenation of all emitted
batches equals the original query list exactly once — no element omitted,
none duplicated.  (Batch size 0 instead yields no batches at all.) -/
theorem c5_batches_concat (n : Nat) (l : List Name) (h : 1 ≤ n) :
    (pybatch n l).flatten = l :=
  pybatch_flatten n (by omega) l

/-- Witness for C5 at batch size 20 on a concrete two-name list. -/
theorem c5_batches_concat_witness :
    (pybatch 20 ["Amanita muscaria".data, "Boletus edulis".data]).flatten
      = ["Amanita muscaria".data, "Boletus edulis".data] :=
  c5_batches_concat 20 ["Amanita muscaria".data, "Boletus edulis".data] (by decide)

/-- C6: a non-success batch-level response marks every name of that batch
`error` with resolvedName "NA", no further classification is attempted for
the batch, and the run simply prepends those rows to the outcome of the
remaining batches — no abort, no retry. -/
theorem c6_batch_fail_error (auth : Authority) (sb : List Name)
    (h : auth.batchQuery sb = BatchResp.fail) :
    processBatch auth sb
        = Except.ok (sb.map fun sp => ⟨sp, Status.error, NA⟩)
      ∧ ∀ bs : List (List Name),
          runBatchList auth (sb :: bs)
            = Except.map
                (fun rest => (sb.map fun sp => (⟨sp, Status.error, NA⟩ : Row)) ++ rest)
                (runBatchList auth bs) := by
  have h1 : processBatch auth sb
      = Except.ok (sb.map fun sp => ⟨sp, Status.error, NA⟩) := by
    unfold processBatch
    rw [h]
  refine ⟨h1, ?_⟩
  intro bs
  show (do
      let rows ← processBatch auth sb
      let rest ← runBatchList auth bs
      Except.ok (rows ++ rest)) = _
  rw [h1]
  cases runBatchList auth bs with
  | error e => rfl
  | ok r => rfl

/-- Witness for C6: an always-failing transport on a batch of three names;
the three error rows are produced and a following batch list is still
processed. -/
theorem c6_batch_fail_error_witness :
    processBatch ⟨fun _ => BatchResp.fail, fun _ => PointPayload.malformed⟩
        ["Amanita muscaria".data, "Boletus edulis".data, "Tuber aestivum".data]
      = Except.ok
          [⟨"Amanita muscaria".data, Status.error, NA⟩,
           ⟨"Boletus edulis".data, Status.error, NA⟩,
           ⟨"Tuber aestivum".data, Status.error, NA⟩]
    ∧ runBatchList ⟨fun _ => BatchResp.fail, fun _ => PointPayload.malformed⟩
        [["Amanita muscaria".data, "Boletus edulis".data, "Tuber aestivum".data], []]
      = Except.map
          (fun rest =>
            [(⟨"Amanita muscaria".data, Status.error, NA⟩ : Row),
             ⟨"Boletus edulis".data, Status.error, NA⟩,
             ⟨"Tuber aestivum".data, Status.error, NA⟩] ++ rest)
          (runBatchList ⟨fun _ => BatchResp.fail, fun _ => PointPayload.malformed⟩ [[]]) := by
  have hc := c6_batch_fail_error
    ⟨fun _ => BatchResp.fail, fun _ => PointPayload.malformed⟩
    ["Amanita muscaria".data, "Boletus edulis".data, "Tuber aestivum".data] rfl
  exact ⟨hc.1, hc.2 [[]]⟩

/-- C7: when the exact (stripped, case-insensitive) non-excluded match set
of a stripped query is empty, the status is `no_records` exactly when no
record of the full batch response bears the query's exact name
(case-insensitively) under any status, and `no_valid` exactly when at least
one record bearing the exact name exists among the illegitimate/invalid
records. -/
theorem c7_empty_matches_status (auth : Authority) (items : List Item)
    (species : Name) (hempty : speciesMatches items species = []) :
    ∃ st, processSpecies auth items species = Except.ok ⟨species, st, NA⟩
      ∧ (st = Status.no_records ↔ ∀ it ∈ items, pyLower it.nameD ≠ pyLower species)
      ∧ (st = Status.no_valid ↔ ∃ it ∈ items, pyLower it.nameD = pyLower species
            ∧ excludedStatus it.nameStatus = true) := by
  have hexcl : ∀ it ∈ items, pyLower it.nameD = pyLower species →
      excludedStatus it.nameStatus = true := by
    intro it hit heq
    have hall := List.filter_eq_nil_iff.mp hempty it hit
    have hbeq : (pyLower (pyStrip it.nameD) == pyLower (pyStrip species)) = true :=
      beq_iff_eq.mpr (lower_eq_imp_strip_lower heq)
    simpa [hbeq] using hall
  unfold processSpecies
  rw [hempty]
  refine ⟨_, rfl, ?_, ?_⟩
  · cases hany : items.any (fun item => pyLower item.nameD == pyLower species) with
    | true =>
      rw [if_pos rfl]
      constructor
      · intro hco; exact absurd hco (by simp)
      · intro hno
        rw [List.any_eq_true] at hany
        obtain ⟨it, hit, hbeq⟩ := hany
        exact absurd (eq_of_beq hbeq) (hno it hit)
    | false =>
      rw [if_neg (by simp)]
      constructor
      · intro _
        intro it hit hco
        rw [List.any_eq_false] at hany
        exact (hany it hit) (beq_iff_eq.mpr hco)
      · intro _; rfl
  · cases hany : items.any (fun item => pyLower item.nameD == pyLower species) with
    | true =>
      rw [if_pos rfl]
      constructor
      · intro _
        rw [List.any_eq_true] at hany
        obtain ⟨it, hit, hbeq⟩ := hany
        have heq := eq_of_beq hbeq
        exact ⟨it, hit, heq, hexcl it hit heq⟩
      · intro _; rfl
    | false =>
      rw [if_neg (by simp)]
      constructor
      · intro hco; exact absurd hco (by simp)
      · rintro ⟨it, hit, heq, _⟩
        rw [List.any_eq_false] at hany
        exact absurd (beq_iff_eq.mpr heq) (hany it hit)

/-- Witness for C7: one response whose only record for the queried name is
`Invalid`, so the match set is empty and the status is `no_valid`. -/
theorem c7_empty_matches_status_witness :
    ∃ st, processSpecies
        ⟨fun _ => BatchResp.fail, fun _ => PointPayload.malformed⟩
        [⟨some (JVal.jnum 1), some "Boletus edulis".data, some "Invalid".data, none, none⟩]
        "Boletus edulis".data
        = Except.ok ⟨"Boletus edulis".data, st, NA⟩
      ∧ (st = Status.no_records ↔ ∀ it ∈
          [(⟨some (JVal.jnum 1), some "Boletus edulis".data, some "Invalid".data, none,
            none⟩ : Item)],
          pyLower it.nameD ≠ pyLower "Boletus edulis".data)
      ∧ (st = Status.no_valid ↔ ∃ it ∈
          [(⟨some (JVal.jnum 1), some "Boletus edulis".data, some "Invalid".data, none,
            none⟩ : Item)],
          pyLower it.nameD = pyLower "Boletus edulis".data
            ∧ excludedStatus it.nameStatus = true) :=
  c7_empty_matches_status
    ⟨fun _ => BatchResp.fail, fun _ => PointPayload.malformed⟩
    [⟨some (JVal.jnum 1), some "Boletus edulis".data, some "Invalid".data, none, none⟩]
    "Boletus edulis".data (by decide)

/-- C8: with more than one exact non-excluded match, agreement of all
matches on the current-name identifier makes the first match the single
canonical record and classification proceeds normally; only disagreement
yields `multiple_records` with no resolved name ("NA"). -/
theorem c8_multiple_records (auth : Authority) (items : List Item)
    (species : Name) (it0 it1 : Item) (tl : List Item)
    (hm : speciesMatches items species = it0 :: it1 :: tl) :
    ((∀ it ∈ it0 :: it1 :: tl, it.currentId = it0.currentId) →
        processSpecies auth items species = classifyCanonical auth species it0)
      ∧ ((∃ it ∈ it0 :: it1 :: tl, it.currentId ≠ it0.currentId) →
        processSpecies auth items species
          = Except.ok ⟨species, Status.multiple_records, NA⟩) := by
  have hred : processSpecies auth items species
      = if ((it0 :: it1 :: tl).all fun item => item.currentId == it0.currentId)
        then classifyCanonical auth species it0
        else Except.ok ⟨species, Status.multiple_records, NA⟩ := by
    unfold processSpecies
    rw [hm]
  rw [hred]
  constructor
  · intro hall
    rw [if_pos ?hc]
    case hc =>
      rw [List.all_eq_true]
      intro it hit
      exact beq_iff_eq.mpr (hall it hit)
  · rintro ⟨it, hit, hne⟩
    rw [if_neg ?hc]
    case hc =>
      rw [List.all_eq_true]
      intro hall
      exact hne (eq_of_beq (hall it hit))

/-- Witness for C8: two agreeing records classify via the first one; two
records with different current-name ids yield `multiple_records`. -/
theorem c8_multiple_records_witness :
    processSpecies ⟨fun _ => BatchResp.fail, fun _ => PointPayload.malformed⟩
        [⟨some (JVal.jnum 1), some "Tuber aestivum".data, none, some ⟨some (JVal.jnum 7)⟩, none⟩,
         ⟨some (JVal.jnum 2), some "Tuber aestivum".data, none, some ⟨some (JVal.jnum 7)⟩, none⟩]
        "Tuber aestivum".data
      = classifyCanonical ⟨fun _ => BatchResp.fail, fun _ => PointPayload.malformed⟩
          "Tuber aestivum".data
          ⟨some (JVal.jnum 1), some "Tuber aestivum".data, none, some ⟨some (JVal.jnum 7)⟩, none⟩
    ∧ processSpecies ⟨fun _ => BatchResp.fail, fun _ => PointPayload.malformed⟩
        [⟨some (JVal.jnum 1), some "Tuber aestivum".data, none, some ⟨some (JVal.jnum 7)⟩, none⟩,
         ⟨some (JVal.jnum 2), some "Tuber aestivum".data, none, some ⟨some (JVal.jnum 8)⟩, none⟩]
        "Tuber aestivum".data
      = Except.ok ⟨"Tuber aestivum".data, Status.multiple_records, NA⟩ := by
  constructor
  · exact (c8_multiple_records ⟨fun _ => BatchResp.fail, fun _ => PointPayload.malformed⟩
      [⟨some (JVal.jnum 1), some "Tuber aestivum".data, none, some ⟨some (JVal.jnum 7)⟩, none⟩,
       ⟨some (JVal.jnum 2), some "Tuber aestivum".data, none, some ⟨some (JVal.jnum 7)⟩, none⟩]
      "Tuber aestivum".data
      ⟨some (JVal.jnum 1), some "Tuber aestivum".data, none, some ⟨some (JVal.jnum 7)⟩, none⟩
      ⟨some (JVal.jnum 2), some "Tuber aestivum".data, none, some ⟨some (JVal.jnum 7)⟩, none⟩
      [] (by decide)).1 (by decide)
  · exact (c8_multiple_records ⟨fun _ => BatchResp.fail, fun _ => PointPayload.malformed⟩
      [⟨some (JVal.jnum 1), some "Tuber aestivum".data, none, some ⟨some (JVal.jnum 7)⟩, none⟩,
       ⟨some (JVal.jnum 2), some "Tuber aestivum".data, none, some ⟨some (JVal.jnum 8)⟩, none⟩]
      "Tuber aestivum".data
      ⟨some (JVal.jnum 1), some "Tuber aestivum".data, none, some ⟨some (JVal.jnum 7)⟩, none⟩
      ⟨some (JVal.jnum 2), some "Tuber aestivum".data, none, some ⟨some (JVal.jnum 8)⟩, none⟩
      [] (by decide)).2
      ⟨⟨some (JVal.jnum 2), some "Tuber aestivum".data, none, some ⟨some (JVal.jnum 8)⟩, none⟩,
       by decide, by decide⟩

/-- C10: with a single canonical match, `no_current` is triggered by any
falsy current-name identifier, not only an absent one — a present
`currentNameId` equal to the number 0 or the empty string is classified
`no_current` rather than `current` or `not_current`, even when the record's
own id is also 0 (the falsiness test precedes the equality test). -/
theorem c10_falsy_no_current (auth : Authority) (items : List Item)
    (species : Name) (item : Item) (v : JVal)
    (hm : speciesMatches items species = [item])
    (hcid : item.currentId = some v) (hf : jfalsy (some v) = true) :
    processSpecies auth items species
      = Except.ok ⟨species, Status.no_current, NA⟩ := by
  have hred : processSpecies auth items species
      = classifyCanonical auth species item := by
    unfold processSpecies
    rw [hm]
  rw [hred]
  unfold classifyCanonical
  rw [hcid]
  rw [if_pos hf]

/-- Witness for C10: a record whose id and currentNameId are both the
number 0: present, falsy, equal — still `no_current`. -/
theorem c10_falsy_no_current_witness :
    processSpecies ⟨fun _ => BatchResp.fail, fun _ => PointPayload.malformed⟩
        [⟨some (JVal.jnum 0), some "Amanita muscaria".data, none,
          some ⟨some (JVal.jnum 0)⟩, none⟩]
        "Amanita muscaria".data
      = Except.ok ⟨"Amanita muscaria".data, Status.no_current, NA⟩ :=
  c10_falsy_no_current ⟨fun _ => BatchResp.fail, fun _ => PointPayload.malformed⟩
    [⟨some (JVal.jnum 0), some "Amanita muscaria".data, none,
      some ⟨some (JVal.jnum 0)⟩, none⟩]
    "Amanita muscaria".data
    ⟨some (JVal.jnum 0), some "Amanita muscaria".data, none,
      some ⟨some (JVal.jnum 0)⟩, none⟩
    (JVal.jnum 0) (by decide) (by decide) (by decide)

/-- Helper: evaluation of `classifyCanonical` once the current-name id is
known to be present and truthy. -/
theorem classifyCanonical_eval (auth : Authority) (species : Name) (item : Item)
    (v : JVal) (hcid : item.currentId = some v) (hf : jfalsy (some v) = false) :
    classifyCanonical auth species item
      = if (item.id == some v) = true then
          (match item.name with
            | none => Except.error ()
            | some nm => Except.ok ⟨species, Status.current, nm⟩)
        else
          (match auth.pointLookup v with
            | PointPayload.malformed => Except.error ()
            | PointPayload.parsed nm _mb =>
              Except.ok ⟨species, Status.not_current, nm.getD UNKNOWN⟩) := by
  unfold classifyCanonical
  rw [hcid, hf]
  rfl

/-- C1, counterexample: the synonym lookup is not guarded.  A name whose
canonical record points to a current-name id (100 ≠ 200, so `not_current`)
but whose point-lookup payload fails to parse makes `response_current.json()`
raise: the run aborts with no rows at all — the batch IS aborted, the result
does not degrade to the "<unknown>" placeholder. -/
theorem c1_malformed_lookup_aborts :
    get_current_names_batch
        ⟨fun _ => BatchResp.ok
            [⟨some (JVal.jnum 100), some "Amanita muscaria".data, none,
              some ⟨some (JVal.jnum 200)⟩, none⟩],
          fun _ => PointPayload.malformed⟩
        ["Amanita muscaria".data] 20
      = Except.error () := by
  have hb : pybatch 20 ["Amanita muscaria".data] = [["Amanita muscaria".data]] := by
    simp [pybatch]
  unfold get_current_names_batch
  rw [hb]
  rfl

/-- C1, amended: for a name classified `not_current`, when the secondary
point lookup's payload parses as JSON but lacks the name field (the shape a
non-success JSON response takes, since the lookup's status code is never
inspected), the accepted-name value degrades to the "<unknown>" placeholder,
the status remains `not_current`, and the batch continues with the
remaining names; only a payload that fails to parse as JSON aborts the
run. -/
theorem c1_lookup_missing_name_degrades (auth : Authority) (items : List Item)
    (species : Name) (item : Item) (v : JVal) (mb : Option JVal)
    (hm : speciesMatches items species = [item])
    (hcid : item.currentId = some v) (hf : jfalsy (some v) = false)
    (hne : (item.id == some v) = false)
    (hlk : auth.pointLookup v = PointPayload.parsed none mb) :
    processSpecies auth items species
        = Except.ok ⟨species, Status.not_current, UNKNOWN⟩
      ∧ ∀ rest : List Name,
          processList auth items (species :: rest)
            = Except.map (fun rows => (⟨species, Status.not_current, UNKNOWN⟩ : Row) :: rows)
                (processList auth items rest) := by
  have h1 : processSpecies auth items species
      = Except.ok ⟨species, Status.not_current, UNKNOWN⟩ := by
    have hred : processSpecies auth items species
        = classifyCanonical auth species item := by
      unfold processSpecies
      rw [hm]
    rw [hred, classifyCanonical_eval auth species item v hcid hf]
    rw [if_neg (by simp [hne]), hlk]
    rfl
  refine ⟨h1, ?_⟩
  intro rest
  show (do
      let row ← processSpecies auth items species
      let rows ← processList auth items rest
      Except.ok (row :: rows)) = _
  rw [h1]
  cases processList auth items rest with
  | error e => rfl
  | ok r => rfl

/-- Witness for C1: a `not_current` record whose lookup parses but has no
name field — the row degrades to "<unknown>" and a following name is still
processed. -/
theorem c1_lookup_missing_name_degrades_witness :
    processSpecies
        ⟨fun _ => BatchResp.fail, fun _ => PointPayload.parsed none none⟩
        [⟨some (JVal.jnum 100), some "Amanita muscaria".data, none,
          some ⟨some (JVal.jnum 200)⟩, none⟩]
        "Amanita muscaria".data
      = Except.ok ⟨"Amanita muscaria".data, Status.not_current, UNKNOWN⟩
    ∧ processList
        ⟨fun _ => BatchResp.fail, fun _ => PointPayload.parsed none none⟩
        [⟨some (JVal.jnum 100), some "Amanita muscaria".data, none,
          some ⟨some (JVal.jnum 200)⟩, none⟩]
        ["Amanita muscaria".data, "Boletus edulis".data]
      = Except.map
          (fun rows =>
            (⟨"Amanita muscaria".data, Status.not_current, UNKNOWN⟩ : Row) :: rows)
          (processList
            ⟨fun _ => BatchResp.fail, fun _ => PointPayload.parsed none none⟩
            [⟨some (JVal.jnum 100), some "Amanita muscaria".data, none,
              some ⟨some (JVal.jnum 200)⟩, none⟩]
            ["Boletus edulis".data]) := by
  have hc := c1_lookup_missing_name_degrades
    ⟨fun _ => BatchResp.fail, fun _ => PointPayload.parsed none none⟩
    [⟨some (JVal.jnum 100), some "Amanita muscaria".data, none,
      some ⟨some (JVal.jnum 200)⟩, none⟩]
    "Amanita muscaria".data
    ⟨some (JVal.jnum 100), some "Amanita muscaria".data, none,
      some ⟨some (JVal.jnum 200)⟩, none⟩
    (JVal.jnum 200) none (by decide) (by decide) (by decide) (by decide) rfl
  exact ⟨hc.1, hc.2 ["Boletus edulis".data]⟩

/-- C2, counterexample: for a canonical match whose own id equals its
current-name id the status is `current`, but the resolvedName written is
the record's `name` field, not the queried string: a record spelled in a
different case than the query (an exact case-insensitive match) is written
back in the record's spelling. -/
theorem c2_resolved_is_record_name_cex :
    processSpecies
        ⟨fun _ => BatchResp.fail, fun _ => PointPayload.malformed⟩
        [⟨some (JVal.jnum 100), some "AMANITA MUSCARIA".data, none,
          some ⟨some (JVal.jnum 100)⟩, none⟩]
        "Amanita muscaria".data
      = Except.ok ⟨"Amanita muscaria".data, Status.current, "AMANITA MUSCARIA".data⟩
    ∧ "AMANITA MUSCARIA".data ≠ "Amanita muscaria".data := by
  refine ⟨rfl, by decide⟩

/-- C2, amended: for a query whose canonical match has its own identifier
equal to its current-name identifier, the status is `current` and the
resolvedName is the canonical record's own name field — a string equal to
the queried name up to case and surrounding whitespace, but not necessarily
the queried string itself. -/
theorem c2_current_resolved_name (auth : Authority) (items : List Item)
    (species : Name) (item : Item) (v : JVal) (nm : Name)
    (hm : speciesMatches items species = [item])
    (hcid : item.currentId = some v) (hf : jfalsy (some v) = false)
    (heq : (item.id == some v) = true) (hname : item.name = some nm) :
    processSpecies auth items species = Except.ok ⟨species, Status.current, nm⟩
      ∧ pyLower (pyStrip nm) = pyLower (pyStrip species) := by
  constructor
  · have hred : processSpecies auth items species
        = classifyCanonical auth species item := by
      unfold processSpecies
      rw [hm]
    rw [hred, classifyCanonical_eval auth species item v hcid hf]
    rw [if_pos heq, hname]
  · have hmem : item ∈ speciesMatches items species := by
      rw [hm]; exact List.mem_singleton.mpr rfl
    unfold speciesMatches at hmem
    have hcond := List.of_mem_filter hmem
    rw [Bool.and_eq_true] at hcond
    have := eq_of_beq hcond.1
    unfold Item.nameD at this
    rw [hname] at this
    exact this

/-- Witness for C2: a record in upper case matching a mixed-case query:
status `current`, resolvedName is the record spelling. -/
theorem c2_current_resolved_name_witness :
    processSpecies
        ⟨fun _ => BatchResp.fail, fun _ => PointPayload.malformed⟩
        [⟨some (JVal.jnum 100), some "AMANITA MUSCARIA".data, none,
          some ⟨some (JVal.jnum 100)⟩, none⟩]
        "Amanita muscaria".data
      = Except.ok ⟨"Amanita muscaria".data, Status.current, "AMANITA MUSCARIA".data⟩
    ∧ pyLower (pyStrip "AMANITA MUSCARIA".data)
      = pyLower (pyStrip "Amanita muscaria".data) :=
  c2_current_resolved_name
    ⟨fun _ => BatchResp.fail, fun _ => PointPayload.malformed⟩
    [⟨some (JVal.jnum 100), some "AMANITA MUSCARIA".data, none,
      some ⟨some (JVal.jnum 100)⟩, none⟩]
    "Amanita muscaria".data
    ⟨some (JVal.jnum 100), some "AMANITA MUSCARIA".data, none,
      some ⟨some (JVal.jnum 100)⟩, none⟩
    (JVal.jnum 100) "AMANITA MUSCARIA".data
    (by decide) (by decide) (by decide) (by decide) (by decide)

/-- C9: for a fixed authority state (a fixed record set with the spec's
case-insensitive starts-with batch filter, and a fixed point-lookup table),
runs with any two positive batch sizes produce identical result rows — in
particular identical per-name statuses — for a query list of stripped
non-blank names (which is what the loader emits). -/
theorem c9_batch_size_indep (recs : List Item) (lk : JVal → PointPayload)
    (l : List Name) (m n : Nat) (hm : 1 ≤ m) (hn : 1 ≤ n)
    (hgood : ∀ sp ∈ l, pyStrip sp = sp ∧ sp ≠ []) :
    get_current_names_batch (semAuth recs lk) l m
      = get_current_names_batch (semAuth recs lk) l n := by
  rw [run_semAuth_flat recs lk l m (by omega) hgood]
  rw [run_semAuth_flat recs lk l n (by omega) hgood]

/-- Witness for C9: two names against a one-record authority, batch size 20
versus batch size 1. -/
theorem c9_batch_size_indep_witness :
    get_current_names_batch
        (semAuth
          [⟨some (JVal.jnum 100), some "Amanita muscaria".data, none,
            some ⟨some (JVal.jnum 100)⟩, none⟩]
          (fun _ => PointPayload.parsed none none))
        ["Amanita muscaria".data, "Boletus edulis".data] 20
      = get_current_names_batch
          (semAuth
            [⟨some (JVal.jnum 100), some "Amanita muscaria".data, none,
              some ⟨some (JVal.jnum 100)⟩, none⟩]
            (fun _ => PointPayload.parsed none none))
          ["Amanita muscaria".data, "Boletus edulis".data] 1 :=
  c9_batch_size_indep
    [⟨some (JVal.jnum 100), some "Amanita muscaria".data, none,
      some ⟨some (JVal.jnum 100)⟩, none⟩]
    (fun _ => PointPayload.parsed none none)
    ["Amanita muscaria".data, "Boletus edulis".data] 20 1
    (by decide) (by decide) (by decide)
